import Mathlib

/-!
Verification of the drizzle-multi-tenant-demo repository.

This file gives a shallow embedding, in Lean 4, of the pure logic of the
repository's tenant-context wrapper (`withTenant`), migration applier
(`applyMigrations`), schema provisioning (`createTenantSchemaWithMigrations`,
`migrateAllTenantSchemas`), health check (`healthCheck`) and the identifier
utilities (`escapeSchemaName`, `validateSchemaName`), together with theorems
settling the stated properties of those functions.

Database and filesystem effects are modelled by explicit state records and
traces; machine-level details (connection handling, logging text layout) that
no claim depends on are kept abstract.
-/

deriving instance DecidableEq for Except

namespace DrizzleDemo

/-! ## Identifier utilities (`db/script-utils.ts`)

`escapeSchemaName` returns `public` unchanged and otherwise wraps the name in
double quotes, doubling every embedded double quote
(`schemaName.replace(/"/g, '""')`). -/

/-- Doubles every `"` character, embedding `s.replace(/"/g, '""')`. -/
def escapeQuotes : List Char → List Char
  | [] => []
  | c :: cs => if c = '"' then '"' :: '"' :: escapeQuotes cs else c :: escapeQuotes cs

/-- Embeds `escapeSchemaName` from `db/script-utils.ts`. -/
def escapeSchemaName (schemaName : String) : String :=
  if schemaName = "public" then "public"
  else String.mk ('"' :: (escapeQuotes schemaName.data ++ ['"']))

/-! `validateSchemaName` from `db/tenant-schema.ts`: non-empty, at most 63
characters, matching `^[a-zA-Z_][a-zA-Z0-9_]*$`, and not a reserved keyword. -/

/-- Code-point interval test used to embed regex character ranges. -/
def charBetween (lo hi c : Char) : Bool :=
  lo ≤ c && c ≤ hi

/-- First character class of the identifier pattern: `[a-zA-Z_]`. -/
def isIdentStart (c : Char) : Bool :=
  charBetween 'a' 'z' c || charBetween 'A' 'Z' c || c = '_'

/-- Subsequent character class of the identifier pattern: `[a-zA-Z0-9_]`. -/
def isIdentChar (c : Char) : Bool :=
  charBetween 'a' 'z' c || charBetween 'A' 'Z' c || charBetween '0' '9' c || c = '_'

/-- Embeds the regex test `/^[a-zA-Z_][a-zA-Z0-9_]*$/.test(schemaName)`. -/
def identPatternTest (s : String) : Bool :=
  match s.data with
  | [] => false
  | c :: cs => isIdentStart c && cs.all isIdentChar

/-- Character-wise lower-casing, embedding `.toLowerCase()` (the names this
is applied to are ASCII identifiers, where this agrees with the source). -/
def lowerString (s : String) : String := String.mk (s.data.map Char.toLower)

/-- The reserved-keyword list of `validateSchemaName`. -/
def reservedKeywords : List String :=
  ["public", "pg_catalog", "pg_toast", "information_schema", "pg_temp", "pg_toast_temp"]

/-- Embeds `validateSchemaName` from `db/tenant-schema.ts`; `Except.error`
carries the thrown message. -/
def validateSchemaName (schemaName : String) : Except String Unit :=
  if schemaName = "" then
    .error "Schema name must be a non-empty string"
  else if schemaName.length > 63 then
    .error "Schema name must be 63 characters or less"
  else if ¬ identPatternTest schemaName then
    .error "Schema name must start with a letter or underscore and contain only letters, digits, and underscores"
  else if reservedKeywords.contains (lowerString schemaName) then
    .error ("Schema name cannot be a reserved PostgreSQL keyword: " ++ schemaName)
  else
    .ok ()

/-! Spec-side definition for C10: a well-formed PostgreSQL quoted identifier
and the name it denotes.  `parseQuotedIdentInner` consumes the characters
after an opening `"`: a lone closing `"` ends the identifier, an escaped pair
`""` denotes one `"`, and anything after the closing quote is malformed. -/

/-- Modelled from the spec: decodes the body of a quoted identifier (the
characters after the opening quote): a lone `"` closes the identifier, a
doubled `""` denotes one `"`, a closing `"` followed by anything is
malformed.  Returns the denoted name. -/
def parseQuotedIdentInner : List Char → Option (List Char)
  | [] => none
  | c :: cs =>
    if c = '"' then
      match cs with
      | [] => some []
      | d :: cs2 =>
        if d = '"' then (parseQuotedIdentInner cs2).map (fun l => '"' :: l)
        else none
    else
      (parseQuotedIdentInner cs).map (fun l => c :: l)

/-- Modelled from the spec: parses a string as a single well-formed quoted
PostgreSQL identifier, returning the name it denotes. -/
def parseQuotedIdent (s : String) : Option String :=
  match s.data with
  | '"' :: rest => (parseQuotedIdentInner rest).map String.mk
  | _ => none

theorem parseQuotedIdentInner_escapeQuotes (cs : List Char) :
    parseQuotedIdentInner (escapeQuotes cs ++ [ '"' ]) = some cs := by
  induction cs with
  | nil => rfl
  | cons c cs ih =>
    by_cases hc : c = '"'
    · subst hc
      simp [escapeQuotes, parseQuotedIdentInner, ih]
    · simp only [escapeQuotes, if_neg hc]
      rw [parseQuotedIdentInner.eq_def]
      simp [hc, ih]

theorem escapeQuotes_of_no_quote (cs : List Char) (h : ∀ c ∈ cs, c ≠ '"') :
    escapeQuotes cs = cs := by
  induction cs with
  | nil => rfl
  | cons c cs ih =>
    have hc : c ≠ '"' := h c (List.mem_cons_self c cs)
    simp [escapeQuotes, hc]
    exact ih (fun d hd => h d (List.mem_cons_of_mem c hd))

theorem identPatternTest_no_quote (s : String) (h : identPatternTest s = true) :
    ∀ c ∈ s.data, c ≠ '"' := by
  intro c hc
  unfold identPatternTest at h
  rcases hdata : s.data with _ | ⟨c0, cs⟩
  · rw [hdata] at h; exact absurd h (by simp)
  · rw [hdata] at h
    simp only [Bool.and_eq_true] at h
    rw [hdata] at hc
    rcases List.mem_cons.mp hc with rfl | hmem
    · intro hq; subst hq; exact absurd h.1 (by decide)
    · intro hq; subst hq
      have := List.all_eq_true.mp h.2 _ hmem
      exact absurd this (by decide)

theorem validateSchemaName_ok_pattern (s : String)
    (h : validateSchemaName s = .ok ()) : identPatternTest s = true := by
  unfold validateSchemaName at h
  split_ifs at h with h1 h2 h3 h4
  exact h3

theorem validateSchemaName_ok_ne_public (s : String)
    (h : validateSchemaName s = .ok ()) : s ≠ "public" := by
  intro hs
  subst hs
  have hpub : validateSchemaName "public" ≠ .ok () := by decide
  exact hpub h

/-- C10: `escapeSchemaName` returns the literal token `public` on the input
`"public"`; on every other input it returns the input wrapped in double
quotes with every embedded `"` doubled, which parses back as a single
well-formed quoted PostgreSQL identifier denoting exactly the input; and for
every name accepted by `validateSchemaName` the result is just the name
enclosed in quotes with no characters altered. -/
theorem escapeSchemaName_correct (s : String) :
    (escapeSchemaName "public" = "public") ∧
    (s ≠ "public" → parseQuotedIdent (escapeSchemaName s) = some s) ∧
    (validateSchemaName s = .ok () →
      escapeSchemaName s = "\"" ++ s ++ "\"") := by
  refine ⟨rfl, ?_, ?_⟩
  · intro hs
    unfold escapeSchemaName
    rw [if_neg hs]
    unfold parseQuotedIdent
    simp only [parseQuotedIdentInner_escapeQuotes]
    cases s
    rfl
  · intro hval
    have hpat := validateSchemaName_ok_pattern s hval
    have hnp := validateSchemaName_ok_ne_public s hval
    unfold escapeSchemaName
    rw [if_neg hnp]
    rw [escapeQuotes_of_no_quote s.data (identPatternTest_no_quote s hpat)]
    cases s
    rfl

/-- Witness for C10 at the concrete name `tenant_1`. -/
theorem escapeSchemaName_correct_witness :
    parseQuotedIdent (escapeSchemaName "tenant_1") = some "tenant_1" ∧
    escapeSchemaName "tenant_1" = "\"tenant_1\"" :=
  ⟨(escapeSchemaName_correct "tenant_1").2.1 (by decide),
   (escapeSchemaName_correct "tenant_1").2.2 (by decide)⟩

/-! ## Migration applier (`db/migration-utils.ts`, `applyMigrations`)

The filesystem is the journal (`meta/_journal.json`, giving the ordered tags
of `journal.entries`) plus the `<tag>.sql` files; the per-schema database
state is the `search_path` setting, the `__drizzle_migrations` tracking table
with its `(hash, created_at)` rows, and the trace of executed migration SQL
bodies.  `Date.now()` is the `now` parameter. -/

/-- Migration artifacts on disk: `journalEntries = none` models a missing
`meta/_journal.json`; `sqlFiles` maps each existing `<tag>.sql` file to its
contents. -/
structure MigrationFS where
  journalEntries : Option (List String)
  sqlFiles : List (String × String)
deriving DecidableEq

/-- Existence/content lookup for `<tag>.sql` (`fs.existsSync` + `readFileSync`). -/
def lookupSqlFile (files : List (String × String)) (tag : String) : Option String :=
  (files.find? (fun f => f.1 = tag)).map (fun f => f.2)

/-- Observable per-schema database state for the migration applier. -/
structure SchemaState where
  /-- schemas named by the last `SET search_path TO ...`, if any was issued -/
  searchPath : Option (List String)
  /-- whether `__drizzle_migrations` exists in the schema -/
  trackingTable : Bool
  /-- `(hash, created_at)` rows of `__drizzle_migrations`, in insertion order -/
  tracking : List (String × Nat)
  /-- migration SQL bodies executed against the schema, in order -/
  executedSql : List String
deriving DecidableEq

/-- The applied-tag set read from the tracking table (empty when the table
does not yet exist). -/
def appliedTags (st : SchemaState) : List String :=
  if st.trackingTable then st.tracking.map Prod.fst else []

/-- The `for (const migration of migrations)` loop of `applyMigrations`:
per entry, first the `fs.existsSync` check (throwing on a missing file),
then the already-applied skip, otherwise execution of the SQL body followed
by the tracking-record insert.  `applied` is the set of hashes read once
before the loop. -/
def applyMigrationsLoop (files : List (String × String)) (applied : List String)
    (now : Nat) : List String → SchemaState → Nat → SchemaState × Except String Nat
  | [], st, count => (st, .ok count)
  | tag :: rest, st, count =>
    match lookupSqlFile files tag with
    | none => (st, .error ("Migration file not found: " ++ tag ++ ".sql"))
    | some sqlBody =>
      if applied.contains tag then
        applyMigrationsLoop files applied now rest st count
      else
        applyMigrationsLoop files applied now rest
          { st with executedSql := st.executedSql ++ [sqlBody],
                    tracking := st.tracking ++ [(tag, now)] }
          (count + 1)

/-- Embeds `applyMigrations` from `db/migration-utils.ts`: set `search_path`,
read the journal (throwing if missing), return immediately on an empty entry
list, otherwise create `__drizzle_migrations` if absent, read the applied
hashes once, and run the loop.  The returned number is the function's
internal `appliedCount` counter. -/
def applyMigrations (fs : MigrationFS) (now : Nat) (schemaName : String)
    (st0 : SchemaState) : SchemaState × Except String Nat :=
  match fs.journalEntries with
  | none => ({ st0 with searchPath := some [schemaName, "public"] },
             .error "Migration journal not found")
  | some migrations =>
    if migrations.isEmpty then
      ({ st0 with searchPath := some [schemaName, "public"] }, .ok 0)
    else
      let st := { st0 with searchPath := some [schemaName, "public"],
                           trackingTable := true,
                           tracking := if st0.trackingTable then st0.tracking else [] }
      applyMigrationsLoop fs.sqlFiles (st.tracking.map Prod.fst) now migrations st 0

/-- When every entry's file exists, the loop succeeds and applies exactly the
entries whose tag is not in the pre-read applied set, in order. -/
theorem applyMigrationsLoop_all_files (files : List (String × String))
    (applied : List String) (now : Nat) (entries : List String)
    (st : SchemaState) (count : Nat)
    (hf : ∀ t ∈ entries, (lookupSqlFile files t).isSome) :
    applyMigrationsLoop files applied now entries st count =
      ({ st with
          tracking := st.tracking ++
            ((entries.filter (fun t => !applied.contains t)).map (fun t => (t, now))),
          executedSql := st.executedSql ++
            ((entries.filter (fun t => !applied.contains t)).map
              (fun t => (lookupSqlFile files t).getD "")) },
       .ok (count + (entries.filter (fun t => !applied.contains t)).length)) := by
  induction entries generalizing st count with
  | nil => simp [applyMigrationsLoop]
  | cons tag rest ih =>
    have htag := hf tag (List.mem_cons_self tag rest)
    obtain ⟨body, hbody⟩ := Option.isSome_iff_exists.mp htag
    have hrest : ∀ t ∈ rest, (lookupSqlFile files t).isSome :=
      fun t ht => hf t (List.mem_cons_of_mem tag ht)
    by_cases hap : tag ∈ applied
    · simp [applyMigrationsLoop, hbody, hap, List.filter_cons, ih _ _ hrest]
    · simp [applyMigrationsLoop, hbody, hap, List.filter_cons, ih _ _ hrest]
      omega

/-- If the applied set already contains every entry tag and every file
exists, the loop changes nothing and applies zero entries. -/
theorem applyMigrationsLoop_all_applied (files : List (String × String))
    (applied : List String) (now : Nat) (entries : List String)
    (st : SchemaState) (count : Nat)
    (hf : ∀ t ∈ entries, (lookupSqlFile files t).isSome)
    (ha : ∀ t ∈ entries, applied.contains t = true) :
    applyMigrationsLoop files applied now entries st count = (st, .ok count) := by
  rw [applyMigrationsLoop_all_files files applied now entries st count hf]
  have hfilter : entries.filter (fun t => !applied.contains t) = [] := by
    rw [List.filter_eq_nil_iff]
    intro t ht
    simpa using ha t ht
  rw [hfilter]
  simp

theorem appliedTags_eq (st : SchemaState) :
    (if st.trackingTable then st.tracking else []).map Prod.fst = appliedTags st := by
  unfold appliedTags
  cases st.trackingTable <;> simp

/-- A non-empty journal whose files all exist: `applyMigrations` succeeds,
appending one tracking row and one executed body per not-yet-applied entry. -/
theorem applyMigrations_nonempty (fs : MigrationFS) (now : Nat)
    (schemaName : String) (st0 : SchemaState) (entries : List String)
    (hj : fs.journalEntries = some entries) (hne : entries ≠ [])
    (hf : ∀ t ∈ entries, (lookupSqlFile fs.sqlFiles t).isSome) :
    applyMigrations fs now schemaName st0 =
      ({ searchPath := some [schemaName, "public"],
         trackingTable := true,
         tracking := (if st0.trackingTable then st0.tracking else []) ++
           ((entries.filter (fun t => !(appliedTags st0).contains t)).map
             (fun t => (t, now))),
         executedSql := st0.executedSql ++
           ((entries.filter (fun t => !(appliedTags st0).contains t)).map
             (fun t => (lookupSqlFile fs.sqlFiles t).getD "")) },
       .ok ((entries.filter (fun t => !(appliedTags st0).contains t)).length)) := by
  have hisEmpty : entries.isEmpty = false := by
    cases entries with
    | nil => exact absurd rfl hne
    | cons e es => rfl
  simp only [applyMigrations, hj, hisEmpty, Bool.false_eq_true, if_false]
  rw [applyMigrationsLoop_all_files fs.sqlFiles _ now entries _ 0 hf]
  rw [appliedTags_eq st0]
  simp

/-- C2: applying the same migration sequence twice to the same schema is
idempotent.  If every journal entry's SQL file exists, the first invocation
of `applyMigrations` succeeds with `appliedCount` equal to the number of
not-yet-applied entries, records every entry tag in the tracking table, and
an immediately following second invocation with the same sequence leaves the
schema state exactly unchanged (no SQL body executed, no tracking record
inserted) and yields `appliedCount = 0`. -/
theorem applyMigrations_idempotent (fs : MigrationFS) (now now2 : Nat)
    (schemaName : String) (st0 : SchemaState) (entries : List String)
    (hj : fs.journalEntries = some entries)
    (hf : ∀ t ∈ entries, (lookupSqlFile fs.sqlFiles t).isSome) :
    ∃ st1 : SchemaState,
      applyMigrations fs now schemaName st0 =
        (st1, .ok ((entries.filter (fun t => !(appliedTags st0).contains t)).length)) ∧
      (∀ t ∈ entries, t ∈ st1.tracking.map Prod.fst) ∧
      applyMigrations fs now2 schemaName st1 = (st1, .ok 0) := by
  rcases eq_or_ne entries [] with rfl | hne
  · refine ⟨{ st0 with searchPath := some [schemaName, "public"] }, ?_, ?_, ?_⟩
    · simp [applyMigrations, hj]
    · simp
    · simp [applyMigrations, hj]
  · have h1 := applyMigrations_nonempty fs now schemaName st0 entries hj hne hf
    have hmem1 : ∀ t ∈ entries,
        t ∈ (applyMigrations fs now schemaName st0).1.tracking.map Prod.fst := by
      intro t ht
      rw [h1]
      simp only [List.map_append, List.map_map, List.mem_append]
      by_cases hmem : t ∈ appliedTags st0
      · left
        rw [appliedTags_eq st0]
        exact hmem
      · right
        simp only [Function.comp_def, List.mem_map]
        exact ⟨t, List.mem_filter.mpr ⟨ht, by simp [hmem]⟩, rfl⟩
    refine ⟨(applyMigrations fs now schemaName st0).1, ?_, hmem1, ?_⟩
    · rw [h1]
    · rw [applyMigrations_nonempty fs now2 schemaName _ entries hj hne hf]
      have htt : (applyMigrations fs now schemaName st0).1.trackingTable = true := by
        rw [h1]
      have hmem2 : ∀ t ∈ entries,
          t ∈ appliedTags (applyMigrations fs now schemaName st0).1 := by
        intro t ht
        unfold appliedTags
        rw [htt]
        simpa using hmem1 t ht
      have hfilter : entries.filter
          (fun t => !(appliedTags (applyMigrations fs now schemaName st0).1).contains t) = [] := by
        rw [List.filter_eq_nil_iff]
        intro t ht
        simp [hmem2 t ht]
      rw [hfilter]
      have hsp : (applyMigrations fs now schemaName st0).1.searchPath =
          some [schemaName, "public"] := by
        rw [h1]
      have hex : ∀ st : SchemaState, st.searchPath = some [schemaName, "public"] →
          st.trackingTable = true →
          ({ searchPath := some [schemaName, "public"], trackingTable := true,
             tracking := (if st.trackingTable then st.tracking else []) ++
               (([] : List String).map (fun t => (t, now2))),
             executedSql := st.executedSql ++
               (([] : List String).map (fun t => (lookupSqlFile fs.sqlFiles t).getD "")) } :
             SchemaState) = st := by
        intro st h1sp h1tt
        cases st
        simp only at h1sp h1tt
        subst h1sp h1tt
        simp
      rw [hex _ hsp htt]
      rfl

/-- Witness for C2: a one-entry sequence applied to a fresh schema, applied
count 1 on the first run and 0 on the second. -/
theorem applyMigrations_idempotent_witness :
    ∃ st1 : SchemaState,
      applyMigrations ⟨some ["0000_init"], [("0000_init", "CREATE TABLE dummy_table ()")]⟩
          7 "tenant_a" ⟨none, false, [], []⟩ = (st1, .ok 1) ∧
      (∀ t ∈ ["0000_init"], t ∈ st1.tracking.map Prod.fst) ∧
      applyMigrations ⟨some ["0000_init"], [("0000_init", "CREATE TABLE dummy_table ()")]⟩
          9 "tenant_a" st1 = (st1, .ok 0) :=
  applyMigrations_idempotent ⟨some ["0000_init"], [("0000_init", "CREATE TABLE dummy_table ()")]⟩
    7 9 "tenant_a" ⟨none, false, [], []⟩ ["0000_init"] rfl (by decide)

/-- With some entry's file missing, the loop stops exactly at the first such
entry: the not-yet-applied entries before it have been executed and
recorded, nothing at or after it has, and the outcome is the missing-file
error for that entry. -/
theorem applyMigrationsLoop_missing_file (files : List (String × String))
    (applied : List String) (now : Nat) (entries : List String)
    (st : SchemaState) (count : Nat)
    (hmiss : ∃ t ∈ entries, lookupSqlFile files t = none) :
    applyMigrationsLoop files applied now entries st count =
      ({ st with
          tracking := st.tracking ++
            (((entries.take (entries.findIdx fun t => (lookupSqlFile files t).isNone)).filter
                (fun t => !applied.contains t)).map (fun t => (t, now))),
          executedSql := st.executedSql ++
            (((entries.take (entries.findIdx fun t => (lookupSqlFile files t).isNone)).filter
                (fun t => !applied.contains t)).map
                (fun t => (lookupSqlFile files t).getD "")) },
       .error ("Migration file not found: " ++
         (entries.getD (entries.findIdx fun t => (lookupSqlFile files t).isNone) "") ++
         ".sql")) := by
  induction entries generalizing st count with
  | nil => exact absurd hmiss (by simp)
  | cons tag rest ih =>
    by_cases hmt : lookupSqlFile files tag = none
    · simp [applyMigrationsLoop, hmt, List.findIdx_cons]
    · obtain ⟨body, hbody⟩ :=
        Option.isSome_iff_exists.mp (Option.ne_none_iff_isSome.mp hmt)
      have hrest : ∃ t ∈ rest, lookupSqlFile files t = none := by
        obtain ⟨t, ht, htn⟩ := hmiss
        rcases List.mem_cons.mp ht with rfl | hm
        · exact absurd htn hmt
        · exact ⟨t, hm, htn⟩
      have hnone : ((lookupSqlFile files tag).isNone) = false := by
        simp [hbody]
      by_cases hap : tag ∈ applied
      · simp [applyMigrationsLoop, hbody, hap, List.findIdx_cons, hnone,
          List.filter_cons, ih _ _ hrest]
      · simp [applyMigrationsLoop, hbody, hap, List.findIdx_cons, hnone,
          List.filter_cons, ih _ _ hrest]

/-- C3 (amended): if some journal entry's SQL file is missing,
`applyMigrations` fails with the missing-file error for the first such
entry; the not-yet-applied entries strictly before it have already been
executed and recorded by this invocation, and no entry at or after it is
executed. -/
theorem applyMigrations_missing_file (fs : MigrationFS) (now : Nat)
    (schemaName : String) (st0 : SchemaState) (entries : List String)
    (hj : fs.journalEntries = some entries)
    (hmiss : ∃ t ∈ entries, lookupSqlFile fs.sqlFiles t = none) :
    applyMigrations fs now schemaName st0 =
      ({ searchPath := some [schemaName, "public"],
         trackingTable := true,
         tracking := (if st0.trackingTable then st0.tracking else []) ++
           (((entries.take
               (entries.findIdx fun t => (lookupSqlFile fs.sqlFiles t).isNone)).filter
              (fun t => !(appliedTags st0).contains t)).map (fun t => (t, now))),
         executedSql := st0.executedSql ++
           (((entries.take
               (entries.findIdx fun t => (lookupSqlFile fs.sqlFiles t).isNone)).filter
              (fun t => !(appliedTags st0).contains t)).map
              (fun t => (lookupSqlFile fs.sqlFiles t).getD "")) },
       .error ("Migration file not found: " ++
         (entries.getD (entries.findIdx fun t => (lookupSqlFile fs.sqlFiles t).isNone) "") ++
         ".sql")) := by
  have hne : entries ≠ [] := by
    rintro rfl
    exact absurd hmiss (by simp)
  have hisEmpty : entries.isEmpty = false := by
    cases entries with
    | nil => exact absurd rfl hne
    | cons e es => rfl
  simp only [applyMigrations, hj, hisEmpty, Bool.false_eq_true, if_false]
  rw [applyMigrationsLoop_missing_file fs.sqlFiles _ now entries _ 0 hmiss]
  rw [appliedTags_eq st0]

/-- C3 counterexample: a two-entry sequence whose second file is missing.
`applyMigrations` does fail with a migration error, but the first entry's
SQL body HAS been executed and its tracking record HAS been inserted by the
failing invocation, so "no part of the sequence is executed" is false. -/
theorem applyMigrations_missing_file_counterexample :
    (applyMigrations
        ⟨some ["0000_init", "0001_add_desc"], [("0000_init", "CREATE TABLE dummy_table ()")]⟩
        7 "tenant_a" ⟨none, false, [], []⟩).2 =
      .error "Migration file not found: 0001_add_desc.sql" ∧
    (applyMigrations
        ⟨some ["0000_init", "0001_add_desc"], [("0000_init", "CREATE TABLE dummy_table ()")]⟩
        7 "tenant_a" ⟨none, false, [], []⟩).1.executedSql =
      ["CREATE TABLE dummy_table ()"] ∧
    (applyMigrations
        ⟨some ["0000_init", "0001_add_desc"], [("0000_init", "CREATE TABLE dummy_table ()")]⟩
        7 "tenant_a" ⟨none, false, [], []⟩).1.tracking = [("0000_init", 7)] := by
  refine ⟨?_, ?_, ?_⟩ <;> rfl

/-- Witness for the amended C3 at the same two-entry sequence. -/
theorem applyMigrations_missing_file_witness :
    applyMigrations
        ⟨some ["0000_init", "0001_add_desc"], [("0000_init", "CREATE TABLE dummy_table ()")]⟩
        7 "tenant_a" ⟨none, false, [], []⟩ =
      ({ searchPath := some ["tenant_a", "public"], trackingTable := true,
         tracking := [("0000_init", 7)],
         executedSql := ["CREATE TABLE dummy_table ()"] },
       .error "Migration file not found: 0001_add_desc.sql") :=
  applyMigrations_missing_file
    ⟨some ["0000_init", "0001_add_desc"], [("0000_init", "CREATE TABLE dummy_table ()")]⟩
    7 "tenant_a" ⟨none, false, [], []⟩ ["0000_init", "0001_add_desc"] rfl
    ⟨"0001_add_desc", by decide, rfl⟩

/-- C9: with an empty migration journal, `applyMigrations` returns
successfully having only set the connection's `search_path`: the tracking
table is not created and no tracking row or SQL body is written, so a schema
provisioned against an empty sequence keeps `trackingTable` as it was (in
particular absent when it was absent). -/
theorem applyMigrations_empty_journal (fs : MigrationFS) (now : Nat)
    (schemaName : String) (st0 : SchemaState)
    (h : fs.journalEntries = some []) :
    applyMigrations fs now schemaName st0 =
      ({ st0 with searchPath := some [schemaName, "public"] }, .ok 0) ∧
    (applyMigrations fs now schemaName st0).1.trackingTable = st0.trackingTable ∧
    (applyMigrations fs now schemaName st0).1.tracking = st0.tracking ∧
    (applyMigrations fs now schemaName st0).1.executedSql = st0.executedSql := by
  refine ⟨?_, ?_, ?_, ?_⟩ <;> simp [applyMigrations, h]

/-- Witness for C9 on a fresh schema with an empty journal. -/
theorem applyMigrations_empty_journal_witness :
    applyMigrations ⟨some [], []⟩ 5 "tenant_a" ⟨none, false, [], []⟩ =
      ({ searchPath := some ["tenant_a", "public"], trackingTable := false,
         tracking := [], executedSql := [] }, .ok 0) :=
  (applyMigrations_empty_journal ⟨some [], []⟩ 5 "tenant_a" ⟨none, false, [], []⟩ rfl).1

/-! ## Tenant-context wrapper (`db-rls/db.ts`, `withTenant`)

`withTenant` tests the tenant id against the anchored case-insensitive
regex `^[0-9a-f]{8}-[0-9a-f]{4}-4[0-9a-f]{3}-[89ab][0-9a-f]{3}-[0-9a-f]{12}$/i`
and throws before any database work when it does not match; otherwise it
opens a transaction, issues `SET LOCAL app.tenant_id`, runs the operation
and commits (or rolls back on the operation's error). -/

/-- The class `[0-9a-f]` under the regex's `/i` flag. -/
def isHexDigit (c : Char) : Bool :=
  charBetween '0' '9' c || charBetween 'a' 'f' c || charBetween 'A' 'F' c

/-- The class `[89ab]` under the regex's `/i` flag. -/
def isVariantChar (c : Char) : Bool :=
  c = '8' || c = '9' || c = 'a' || c = 'b' || c = 'A' || c = 'B'

/-- Consume exactly `n` hex digits from the front. -/
def dropHex : Nat → List Char → Option (List Char)
  | 0, cs => some cs
  | _ + 1, [] => none
  | n + 1, c :: cs => if isHexDigit c then dropHex n cs else none

/-- Consume one expected literal character. -/
def expectChar (c : Char) : List Char → Option (List Char)
  | [] => none
  | d :: cs => if d = c then some cs else none

/-- Consume one character of a class. -/
def expectClass (p : Char → Bool) : List Char → Option (List Char)
  | [] => none
  | d :: cs => if p d then some cs else none

/-- Embeds `UUID_REGEX.test` from `db-rls/db.ts`: the anchored pattern
`8 hex, -, 4 hex, -, 4 then 3 hex, -, [89ab] then 3 hex, -, 12 hex`,
case-insensitive, with nothing left over. -/
def uuidRegexTest (s : String) : Bool :=
  (((((((((((some s.data).bind (dropHex 8)).bind (expectChar '-')).bind
    (dropHex 4)).bind (expectChar '-')).bind (expectChar '4')).bind
    (dropHex 3)).bind (expectChar '-')).bind (expectClass isVariantChar)).bind
    (dropHex 3)).bind (expectChar '-')).bind (dropHex 12) = some []

/-- The observable database actions issued by `withTenant`, in order. -/
inductive DbAction where
  | beginTransaction
  | setLocalTenantId (tenantId : String)
  | runOperation
  | commit
  | rollback
deriving DecidableEq

/-- Errors surfaced by `withTenant`: the validation throw, or the
operation's own error propagated out of the rolled-back transaction. -/
inductive TenantError where
  | invalidTenantId (got : String)
  | operationError (msg : String)
deriving DecidableEq

/-- Embeds `withTenant` from `db-rls/db.ts`.  The caller-supplied operation
is abstracted by its outcome; the second component is the trace of database
actions performed. -/
def withTenant (tenantId : String) (operation : Except String Unit) :
    Except TenantError Unit × List DbAction :=
  if !uuidRegexTest tenantId then
    (.error (.invalidTenantId tenantId), [])
  else
    match operation with
    | .ok r =>
      (.ok r, [.beginTransaction, .setLocalTenantId tenantId, .runOperation, .commit])
    | .error e =>
      (.error (.operationError e),
       [.beginTransaction, .setLocalTenantId tenantId, .runOperation, .rollback])

/-- Numeric value of a hexadecimal digit (case-insensitive), used to state
the canonical UUID grammar of the claim. -/
def hexVal (c : Char) : Option Nat :=
  if charBetween '0' '9' c then some (c.toNat - 48)
  else if charBetween 'a' 'f' c then some (c.toNat - 87)
  else if charBetween 'A' 'F' c then some (c.toNat - 55)
  else none

/-- Modelled from the spec: the canonical UUID grammar — five hyphen-joined
groups of 8, 4, 4, 4 and 12 hexadecimal digits, whose version nibble (first
digit of the third group) has value 4 and whose variant nibble (first digit
of the fourth group) has value 8, 9, a or b. -/
def canonicalUuidGrammar (s : String) : Prop :=
  ∃ g1 g2 g3 g4 g5 : List Char,
    s.data = g1 ++ '-' :: (g2 ++ '-' :: (g3 ++ '-' :: (g4 ++ '-' :: g5))) ∧
    g1.length = 8 ∧ g2.length = 4 ∧ g3.length = 4 ∧ g4.length = 4 ∧
    g5.length = 12 ∧
    (∀ c ∈ g1 ++ g2 ++ g3 ++ g4 ++ g5, (hexVal c).isSome) ∧
    (∃ t, g3.head? = some t ∧ hexVal t = some 4) ∧
    (∃ v, g4.head? = some v ∧
      ∃ n, hexVal v = some n ∧ (n = 8 ∨ n = 9 ∨ n = 10 ∨ n = 11))

theorem char_eq_of_toNat_eq (a b : Char) (h : a.toNat = b.toNat) : a = b :=
  Char.ext (UInt32.ext h)

theorem isHexDigit_eq_isSome_hexVal (c : Char) :
    isHexDigit c = (hexVal c).isSome := by
  unfold isHexDigit hexVal
  split_ifs with h1 h2 h3 <;> simp_all

theorem hexVal_eq_four_iff (c : Char) : hexVal c = some 4 ↔ c = '4' := by
  constructor
  · intro h
    unfold hexVal at h
    split_ifs at h with h1 h2 h3
    · simp only [charBetween, Bool.and_eq_true, decide_eq_true_eq] at h1
      have ha : (48 : Nat) ≤ c.toNat := h1.1
      have hb : c.toNat ≤ 57 := h1.2
      have hv : c.toNat - 48 = 4 := Option.some.inj h
      have h4 : '4'.toNat = 52 := rfl
      exact char_eq_of_toNat_eq c '4' (by omega)
    · simp only [charBetween, Bool.and_eq_true, decide_eq_true_eq] at h2
      have ha : (97 : Nat) ≤ c.toNat := h2.1
      have hv : c.toNat - 87 = 4 := Option.some.inj h
      exact absurd hv (by omega)
    · simp only [charBetween, Bool.and_eq_true, decide_eq_true_eq] at h3
      have ha : (65 : Nat) ≤ c.toNat := h3.1
      have hv : c.toNat - 55 = 4 := Option.some.inj h
      exact absurd hv (by omega)
  · rintro rfl
    rfl

theorem isVariantChar_iff (c : Char) :
    isVariantChar c = true ↔
      ∃ n, hexVal c = some n ∧ (n = 8 ∨ n = 9 ∨ n = 10 ∨ n = 11) := by
  constructor
  · intro h
    unfold isVariantChar at h
    simp only [Bool.or_eq_true, decide_eq_true_eq] at h
    rcases h with ((((rfl | rfl) | rfl) | rfl) | rfl) | rfl
    · exact ⟨8, rfl, Or.inl rfl⟩
    · exact ⟨9, rfl, Or.inr (Or.inl rfl)⟩
    · exact ⟨10, rfl, Or.inr (Or.inr (Or.inl rfl))⟩
    · exact ⟨11, rfl, Or.inr (Or.inr (Or.inr rfl))⟩
    · exact ⟨10, rfl, Or.inr (Or.inr (Or.inl rfl))⟩
    · exact ⟨11, rfl, Or.inr (Or.inr (Or.inr rfl))⟩
  · rintro ⟨n, hn, hcase⟩
    unfold hexVal at hn
    split_ifs at hn with h1 h2 h3
    · simp only [charBetween, Bool.and_eq_true, decide_eq_true_eq] at h1
      have ha : (48 : Nat) ≤ c.toNat := h1.1
      have hb : c.toNat ≤ 57 := h1.2
      have hv : c.toNat - 48 = n := Option.some.inj hn
      have : c.toNat = 56 ∨ c.toNat = 57 := by
        rcases hcase with rfl | rfl | rfl | rfl <;> omega
      rcases this with h56 | h57
      · rw [char_eq_of_toNat_eq c '8' h56]
        decide
      · rw [char_eq_of_toNat_eq c '9' h57]
        decide
    · simp only [charBetween, Bool.and_eq_true, decide_eq_true_eq] at h2
      have ha : (97 : Nat) ≤ c.toNat := h2.1
      have hb : c.toNat ≤ 102 := h2.2
      have hv : c.toNat - 87 = n := Option.some.inj hn
      have : c.toNat = 97 ∨ c.toNat = 98 := by
        rcases hcase with rfl | rfl | rfl | rfl <;> omega
      rcases this with h97 | h98
      · rw [char_eq_of_toNat_eq c 'a' h97]
        decide
      · rw [char_eq_of_toNat_eq c 'b' h98]
        decide
    · simp only [charBetween, Bool.and_eq_true, decide_eq_true_eq] at h3
      have ha : (65 : Nat) ≤ c.toNat := h3.1
      have hb : c.toNat ≤ 70 := h3.2
      have hv : c.toNat - 55 = n := Option.some.inj hn
      have : c.toNat = 65 ∨ c.toNat = 66 := by
        rcases hcase with rfl | rfl | rfl | rfl <;> omega
      rcases this with h65 | h66
      · rw [char_eq_of_toNat_eq c 'A' h65]
        decide
      · rw [char_eq_of_toNat_eq c 'B' h66]
        decide

theorem dropHex_some (n : Nat) (cs rest : List Char)
    (h : dropHex n cs = some rest) :
    ∃ g, cs = g ++ rest ∧ g.length = n ∧ ∀ c ∈ g, isHexDigit c = true := by
  induction n generalizing cs with
  | zero =>
    refine ⟨[], ?_, rfl, by simp⟩
    simpa [dropHex] using h
  | succ n ih =>
    cases cs with
    | nil => exact absurd h (by simp [dropHex])
    | cons c cs =>
      by_cases hc : isHexDigit c
      · rw [dropHex, if_pos hc] at h
        obtain ⟨g, rfl, hlen, hhex⟩ := ih cs h
        refine ⟨c :: g, rfl, by simp [hlen], ?_⟩
        intro d hd
        rcases List.mem_cons.mp hd with rfl | hm
        · exact hc
        · exact hhex d hm
      · rw [dropHex, if_neg hc] at h
        exact absurd h (by simp)

theorem dropHex_append (g rest : List Char)
    (hhex : ∀ c ∈ g, isHexDigit c = true) :
    dropHex g.length (g ++ rest) = some rest := by
  induction g with
  | nil => rfl
  | cons c g ih =>
    have hc := hhex c (List.mem_cons_self _ _)
    simp only [List.length_cons, List.cons_append, dropHex, if_pos hc]
    exact ih (fun d hd => hhex d (List.mem_cons_of_mem _ hd))

theorem expectChar_eq_some (c : Char) (l rest : List Char) :
    expectChar c l = some rest ↔ l = c :: rest := by
  cases l with
  | nil => simp [expectChar]
  | cons d cs =>
    unfold expectChar
    by_cases hd : d = c
    · subst hd
      simp
    · simp [hd]

theorem expectClass_eq_some (p : Char → Bool) (l rest : List Char) :
    expectClass p l = some rest ↔ ∃ d, l = d :: rest ∧ p d = true := by
  cases l with
  | nil => simp [expectClass]
  | cons d cs =>
    unfold expectClass
    by_cases hd : p d
    · simp only [if_pos hd, Option.some.injEq]
      constructor
      · rintro rfl
        exact ⟨d, rfl, hd⟩
      · rintro ⟨e, heq, hpe⟩
        exact (List.cons.inj heq).2
    · simp only [if_neg hd]
      constructor
      · intro h
        exact absurd h (by simp)
      · rintro ⟨e, heq, hpe⟩
        obtain ⟨rfl, rfl⟩ := List.cons.inj heq
        exact absurd hpe hd

theorem dropHex_append' (n : Nat) (g rest : List Char) (hlen : g.length = n)
    (hhex : ∀ c ∈ g, isHexDigit c = true) :
    dropHex n (g ++ rest) = some rest := hlen ▸ dropHex_append g rest hhex

theorem expectChar_cons (c : Char) (l : List Char) :
    expectChar c (c :: l) = some l := by
  simp [expectChar]

theorem expectClass_cons (p : Char → Bool) (d : Char) (l : List Char)
    (hd : p d = true) : expectClass p (d :: l) = some l := by
  simp [expectClass, hd]

/-- The source's `UUID_REGEX` accepts exactly the canonical UUID grammar of
the spec. -/
theorem uuidRegexTest_iff_canonical (s : String) :
    uuidRegexTest s = true ↔ canonicalUuidGrammar s := by
  constructor
  · intro h
    simp only [uuidRegexTest, decide_eq_true_eq] at h
    obtain ⟨rB, hB11, hd12⟩ := Option.bind_eq_some.mp h
    obtain ⟨rA, hB10, heA⟩ := Option.bind_eq_some.mp hB11
    obtain ⟨r9, hB9, hd3b⟩ := Option.bind_eq_some.mp hB10
    obtain ⟨r8, hB8, hvr⟩ := Option.bind_eq_some.mp hB9
    obtain ⟨r7, hB7, heB⟩ := Option.bind_eq_some.mp hB8
    obtain ⟨r6, hB6, hd3a⟩ := Option.bind_eq_some.mp hB7
    obtain ⟨r5, hB5, he4⟩ := Option.bind_eq_some.mp hB6
    obtain ⟨r4, hB4, heC⟩ := Option.bind_eq_some.mp hB5
    obtain ⟨r3, hB3, hd4⟩ := Option.bind_eq_some.mp hB4
    obtain ⟨r2, hB2, heD⟩ := Option.bind_eq_some.mp hB3
    obtain ⟨r1, hr1, hd8⟩ := Option.bind_eq_some.mp hB2
    have hr1s : r1 = s.data := (Option.some.inj hr1).symm
    subst hr1s
    obtain ⟨G1, hseq, hlen1, hhex1⟩ := dropHex_some 8 _ _ hd8
    have hr2 : r2 = '-' :: r3 := (expectChar_eq_some _ _ _).mp heD
    obtain ⟨G2, hr3eq, hlen2, hhex2⟩ := dropHex_some 4 _ _ hd4
    have hr4 : r4 = '-' :: r5 := (expectChar_eq_some _ _ _).mp heC
    have hr5 : r5 = '4' :: r6 := (expectChar_eq_some _ _ _).mp he4
    obtain ⟨G3, hr6eq, hlen3, hhex3⟩ := dropHex_some 3 _ _ hd3a
    have hr7 : r7 = '-' :: r8 := (expectChar_eq_some _ _ _).mp heB
    obtain ⟨v, hr8, hv⟩ := (expectClass_eq_some _ _ _).mp hvr
    obtain ⟨G4, hr9eq, hlen4, hhex4⟩ := dropHex_some 3 _ _ hd3b
    have hrA : rA = '-' :: rB := (expectChar_eq_some _ _ _).mp heA
    obtain ⟨G5, hrBeq, hlen5, hhex5⟩ := dropHex_some 12 _ _ hd12
    rw [List.append_nil] at hrBeq
    obtain ⟨nv, hnv, hnvcase⟩ := (isVariantChar_iff v).mp hv
    refine ⟨G1, G2, '4' :: G3, v :: G4, G5, ?_, hlen1, hlen2, by simp [hlen3],
      by simp [hlen4], hlen5, ?_, ⟨'4', rfl, rfl⟩, ⟨v, rfl, nv, hnv, hnvcase⟩⟩
    · rw [hseq, hr2, hr3eq, hr4, hr5, hr6eq, hr7, hr8, hr9eq, hrA, hrBeq]
      simp [List.append_assoc]
    · intro c hc
      simp only [List.append_assoc, List.cons_append, List.mem_append,
        List.mem_cons] at hc
      rcases hc with h1 | h2 | rfl | h3 | rfl | h4 | h5
      · rw [← isHexDigit_eq_isSome_hexVal]; exact hhex1 c h1
      · rw [← isHexDigit_eq_isSome_hexVal]; exact hhex2 c h2
      · rfl
      · rw [← isHexDigit_eq_isSome_hexVal]; exact hhex3 c h3
      · rw [hnv]; rfl
      · rw [← isHexDigit_eq_isSome_hexVal]; exact hhex4 c h4
      · rw [← isHexDigit_eq_isSome_hexVal]; exact hhex5 c h5
  · rintro ⟨g1, g2, g3, g4, g5, heq, hlen1, hlen2, hlen3, hlen4, hlen5,
      hhexAll, ⟨t, ht3, ht4⟩, ⟨v, hv4, nv, hnv, hnvcase⟩⟩
    have ht : t = '4' := (hexVal_eq_four_iff t).mp ht4
    subst ht
    cases g3 with
    | nil => exact absurd ht3 (by simp)
    | cons t3 g3tl =>
    cases g4 with
    | nil => exact absurd hv4 (by simp)
    | cons v4 g4tl =>
    have ht3' : t3 = '4' := Option.some.inj ht3
    have hv4' : v4 = v := Option.some.inj hv4
    subst ht3'
    rw [hv4'] at heq hhexAll
    have hvariant : isVariantChar v = true :=
      (isVariantChar_iff v).mpr ⟨nv, hnv, hnvcase⟩
    have hhex : ∀ c, c ∈ g1 ∨ c ∈ g2 ∨ c ∈ g3tl ∨ c ∈ g4tl ∨ c ∈ g5 →
        isHexDigit c = true := by
      intro c hc
      rw [isHexDigit_eq_isSome_hexVal]
      refine hhexAll c ?_
      simp only [List.append_assoc, List.cons_append, List.mem_append,
        List.mem_cons]
      rcases hc with h1 | h2 | h3 | h4 | h5
      · exact Or.inl h1
      · exact Or.inr (Or.inl h2)
      · exact Or.inr (Or.inr (Or.inr (Or.inl h3)))
      · exact Or.inr (Or.inr (Or.inr (Or.inr (Or.inr (Or.inl h4)))))
      · exact Or.inr (Or.inr (Or.inr (Or.inr (Or.inr (Or.inr h5)))))
    have hlen3' : g3tl.length = 3 := by simpa using hlen3
    have hlen4' : g4tl.length = 3 := by simpa using hlen4
    simp only [uuidRegexTest, heq, decide_eq_true_eq, List.cons_append,
      Option.some_bind]
    rw [dropHex_append' 8 g1 _ hlen1 (fun c hc => hhex c (Or.inl hc))]
    simp only [Option.some_bind]
    rw [expectChar_cons]
    simp only [Option.some_bind]
    rw [dropHex_append' 4 g2 _ hlen2 (fun c hc => hhex c (Or.inr (Or.inl hc)))]
    simp only [Option.some_bind]
    rw [expectChar_cons]
    simp only [Option.some_bind]
    rw [expectChar_cons]
    simp only [Option.some_bind]
    rw [dropHex_append' 3 g3tl _ hlen3'
      (fun c hc => hhex c (Or.inr (Or.inr (Or.inl hc))))]
    simp only [Option.some_bind]
    rw [expectChar_cons]
    simp only [Option.some_bind]
    rw [expectClass_cons isVariantChar v _ hvariant]
    simp only [Option.some_bind]
    rw [dropHex_append' 3 g4tl _ hlen4'
      (fun c hc => hhex c (Or.inr (Or.inr (Or.inr (Or.inl hc)))))]
    simp only [Option.some_bind]
    rw [expectChar_cons]
    simp only [Option.some_bind]
    have h12 : dropHex 12 (g5 ++ []) = some [] :=
      dropHex_append' 12 g5 []  hlen5
        (fun c hc => hhex c (Or.inr (Or.inr (Or.inr (Or.inr hc)))))
    rwa [List.append_nil] at h12

/-- C1: for every string `tenantId` that does not match the canonical UUID
grammar (8-4-4-4-12 hex digits, version nibble 4, variant nibble in
8/9/a/b), `withTenant` throws the invalid-tenant-id error with an empty
action trace — before opening any transaction or connection; for every
`tenantId` matching that grammar, the invalid-tenant-id error is never
thrown, whatever the wrapped operation does. -/
theorem withTenant_validation (tenantId : String)
    (operation : Except String Unit) :
    (¬ canonicalUuidGrammar tenantId →
      withTenant tenantId operation =
        (.error (.invalidTenantId tenantId), [])) ∧
    (canonicalUuidGrammar tenantId →
      ∀ got, (withTenant tenantId operation).1 ≠
        .error (.invalidTenantId got)) := by
  constructor
  · intro hng
    have hf : uuidRegexTest tenantId = false := by
      cases h : uuidRegexTest tenantId
      · rfl
      · exact absurd ((uuidRegexTest_iff_canonical tenantId).mp h) hng
    simp [withTenant, hf]
  · intro hg got
    have ht : uuidRegexTest tenantId = true :=
      (uuidRegexTest_iff_canonical tenantId).mpr hg
    cases operation <;> simp [withTenant, ht]

/-- Witness for C1: a malformed token is rejected with no database action,
and a well-formed v4 UUID is not rejected. -/
theorem withTenant_validation_witness :
    withTenant "not-a-uuid" (.ok ()) =
      (.error (.invalidTenantId "not-a-uuid"), []) ∧
    (withTenant "11111111-1111-4111-8111-111111111111" (.ok ())).1 ≠
      .error (.invalidTenantId "11111111-1111-4111-8111-111111111111") :=
  ⟨(withTenant_validation "not-a-uuid" (.ok ())).1
      (fun hc => absurd
        ((uuidRegexTest_iff_canonical "not-a-uuid").mpr hc) (by decide)),
   (withTenant_validation "11111111-1111-4111-8111-111111111111" (.ok ())).2
      ((uuidRegexTest_iff_canonical "11111111-1111-4111-8111-111111111111").mp
        (by decide))
      "11111111-1111-4111-8111-111111111111"⟩

/-! ## Tenant schema provisioning (`db/tenant-schema.ts`)

`createTenantSchemaWithMigrations` validates the name, creates the schema,
applies migrations, lists the tables of the schema and verifies that
`dummy_table` landed there (with a distinct message when it landed in
`public` instead); on any failure in the `try` block it attempts
`DROP SCHEMA ... CASCADE`, logs — but swallows — a failing drop, and
rethrows the original error.  Engine responses are the environment. -/

/-- `SELECT table_name FROM information_schema.tables WHERE table_schema =
name` over the `(schema, table)` pairs present (engine row order kept). -/
def tablesOfSchema (tables : List (String × String)) (schemaName : String) :
    List String :=
  (tables.filter (fun p => p.1 = schemaName)).map (fun p => p.2)

/-- The `errorMsg` built by the verification step. -/
def dummyTableErrorMsg (tables : List (String × String))
    (schemaName : String) : String :=
  "dummy_table was not created in tenant schema " ++ schemaName ++ ". " ++
  "Migration execution may have failed. " ++
  "Tables found in schema: " ++
  String.intercalate ", " (tablesOfSchema tables schemaName)

/-- The post-migration verification of `createTenantSchemaWithMigrations`
(lines 88–114): check `dummy_table` under the tenant schema, and on failure
distinguish whether it exists under `public` instead. -/
def verifyDummyTable (tables : List (String × String))
    (schemaName : String) : Except String Unit :=
  if tables.contains (schemaName, "dummy_table") then .ok ()
  else if tables.contains ("public", "dummy_table") then
    .error (dummyTableErrorMsg tables schemaName ++
      " Note: dummy_table exists in public schema instead.")
  else
    .error (dummyTableErrorMsg tables schemaName)

/-- Engine responses consumed by one `createTenantSchemaWithMigrations`
call: outcome of `CREATE SCHEMA IF NOT EXISTS`, outcome of the migration
application, the table catalog at verification time, and the outcome of the
cleanup `DROP SCHEMA ... CASCADE`. -/
structure ProvisionEnv where
  createSchemaResult : Except String Unit
  migrationsResult : Except String Unit
  tablesAfter : List (String × String)
  dropResult : Except String Unit
deriving DecidableEq

/-- The `try` block of `createTenantSchemaWithMigrations`: create schema,
apply migrations, verify `dummy_table`. -/
def createTenantSchemaTryBlock (env : ProvisionEnv) (schemaName : String) :
    Except String Unit :=
  match env.createSchemaResult with
  | .error e => .error e
  | .ok _ =>
    match env.migrationsResult with
    | .error e => .error e
    | .ok _ => verifyDummyTable env.tablesAfter schemaName

/-- What a `createTenantSchemaWithMigrations` call did: the outcome raised
to the caller, whether the cleanup drop was attempted, and whether a failing
cleanup was logged (and swallowed). -/
structure ProvisionResult where
  result : Except String Unit
  dropAttempted : Bool
  cleanupFailureLogged : Bool
deriving DecidableEq

/-- Embeds `createTenantSchemaWithMigrations` from `db/tenant-schema.ts`:
name validation throws before the `try` block; any `try`-block error
triggers the cascade drop, whose own failure is only logged; the original
error is rethrown. -/
def createTenantSchemaWithMigrations (env : ProvisionEnv)
    (schemaName : String) : ProvisionResult :=
  match validateSchemaName schemaName with
  | .error e => ⟨.error e, false, false⟩
  | .ok _ =>
    match createTenantSchemaTryBlock env schemaName with
    | .ok _ => ⟨.ok (), false, false⟩
    | .error e =>
      match env.dropResult with
      | .ok _ => ⟨.error e, true, false⟩
      | .error _ => ⟨.error e, true, true⟩

/-- C5: every failure inside the provisioning `try` block (schema creation,
migration application, or post-migration verification) triggers an attempt
to drop the schema with cascade, and the error raised to the caller is the
original provisioning error; when the cleanup drop itself fails, the
failure is logged but the raised error is still the original one. -/
theorem createTenantSchemaWithMigrations_cleanup (env : ProvisionEnv)
    (schemaName : String) (e : String)
    (hv : validateSchemaName schemaName = .ok ())
    (hfail : createTenantSchemaTryBlock env schemaName = .error e) :
    (createTenantSchemaWithMigrations env schemaName).result = .error e ∧
    (createTenantSchemaWithMigrations env schemaName).dropAttempted = true ∧
    (∀ e2, env.dropResult = .error e2 →
      (createTenantSchemaWithMigrations env schemaName).cleanupFailureLogged
          = true ∧
      (createTenantSchemaWithMigrations env schemaName).result = .error e) := by
  unfold createTenantSchemaWithMigrations
  rw [hv, hfail]
  cases hd : env.dropResult with
  | ok _ => exact ⟨rfl, rfl, fun e2 he2 => by simp at he2⟩
  | error e2 => exact ⟨rfl, rfl, fun _ _ => ⟨rfl, rfl⟩⟩

/-- Witness for C5: migration failure with a failing cleanup drop still
surfaces the migration error. -/
theorem createTenantSchemaWithMigrations_cleanup_witness :
    (createTenantSchemaWithMigrations
      ⟨.ok (), .error "SQL execution failed", [], .error "drop failed"⟩
      "tenant_a").result = .error "SQL execution failed" ∧
    (createTenantSchemaWithMigrations
      ⟨.ok (), .error "SQL execution failed", [], .error "drop failed"⟩
      "tenant_a").dropAttempted = true ∧
    (createTenantSchemaWithMigrations
      ⟨.ok (), .error "SQL execution failed", [], .error "drop failed"⟩
      "tenant_a").cleanupFailureLogged = true :=
  have h := createTenantSchemaWithMigrations_cleanup
    ⟨.ok (), .error "SQL execution failed", [], .error "drop failed"⟩
    "tenant_a" "SQL execution failed" (by decide) rfl
  ⟨h.1, h.2.1, (h.2.2 "drop failed" rfl).1⟩

/-- C8: after successful schema creation and migration application, if
`dummy_table` is missing from the tenant schema, the raised error is the
distinct misrouted-migration message (noting the table exists under
`public`) exactly when `dummy_table` is present under `public`, and the
generic missing-table message otherwise; the two messages differ. -/
theorem createTenantSchemaWithMigrations_misrouted (env : ProvisionEnv)
    (schemaName : String)
    (hv : validateSchemaName schemaName = .ok ())
    (hcreate : env.createSchemaResult = .ok ())
    (hmig : env.migrationsResult = .ok ())
    (hmissing : env.tablesAfter.contains (schemaName, "dummy_table") = false) :
    (env.tablesAfter.contains ("public", "dummy_table") = true →
      (createTenantSchemaWithMigrations env schemaName).result =
        .error (dummyTableErrorMsg env.tablesAfter schemaName ++
          " Note: dummy_table exists in public schema instead.")) ∧
    (env.tablesAfter.contains ("public", "dummy_table") = false →
      (createTenantSchemaWithMigrations env schemaName).result =
        .error (dummyTableErrorMsg env.tablesAfter schemaName)) ∧
    (dummyTableErrorMsg env.tablesAfter schemaName ++
        " Note: dummy_table exists in public schema instead." ≠
      dummyTableErrorMsg env.tablesAfter schemaName) := by
  refine ⟨?_, ?_, ?_⟩
  · intro hpub
    unfold createTenantSchemaWithMigrations createTenantSchemaTryBlock
      verifyDummyTable
    rw [hv, hcreate, hmig, hmissing, hpub]
    simp only [Bool.false_eq_true, if_false, if_true]
    cases env.dropResult <;> rfl
  · intro hpub
    unfold createTenantSchemaWithMigrations createTenantSchemaTryBlock
      verifyDummyTable
    rw [hv, hcreate, hmig, hmissing, hpub]
    simp only [Bool.false_eq_true, if_false]
    cases env.dropResult <;> rfl
  · intro hEq
    have hlen := congrArg String.length hEq
    rw [String.length_append] at hlen
    have : 0 < (" Note: dummy_table exists in public schema instead.").length := by
      decide
    omega

/-- Witness for C8: `dummy_table` under `public` only yields the distinct
misrouted message. -/
theorem createTenantSchemaWithMigrations_misrouted_witness :
    (createTenantSchemaWithMigrations
      ⟨.ok (), .ok (), [("public", "dummy_table")], .ok ()⟩ "tenant_a").result =
      .error (dummyTableErrorMsg [("public", "dummy_table")] "tenant_a" ++
        " Note: dummy_table exists in public schema instead.") ∧
    (dummyTableErrorMsg [("public", "dummy_table")] "tenant_a" ++
        " Note: dummy_table exists in public schema instead." ≠
      dummyTableErrorMsg [("public", "dummy_table")] "tenant_a") :=
  have h := createTenantSchemaWithMigrations_misrouted
    ⟨.ok (), .ok (), [("public", "dummy_table")], .ok ()⟩ "tenant_a"
    (by decide) rfl rfl (by decide)
  ⟨h.1 (by decide), h.2.2⟩

/-! `migrateAllTenantSchemas`: iterate the registry, catching per-schema
errors, counting successes/failures and recording `(schema, error)`. -/

/-- The aggregate report of `migrateAllTenantSchemas`. -/
structure MigrateAllReport where
  success : Nat
  failures : Nat
  errors : List (String × String)
deriving DecidableEq

/-- Embeds the loop of `migrateAllTenantSchemas` from `db/tenant-schema.ts`:
`schemas` are the `schema_tracker` rows in select order, and `provision`
gives the outcome of `createTenantSchemaWithMigrations` on each name (the
per-name `try/catch` is the match). -/
def migrateAllTenantSchemas (provision : String → Except String Unit)
    (schemas : List String) : MigrateAllReport :=
  schemas.foldl
    (fun r name =>
      match provision name with
      | .ok _ => { r with success := r.success + 1 }
      | .error msg =>
        { r with failures := r.failures + 1, errors := r.errors ++ [(name, msg)] })
    ⟨0, 0, []⟩

theorem migrateAllTenantSchemas_foldl (provision : String → Except String Unit)
    (schemas : List String) (r : MigrateAllReport) :
    schemas.foldl
      (fun r name =>
        match provision name with
        | .ok _ => { r with success := r.success + 1 }
        | .error msg =>
          { r with failures := r.failures + 1,
                   errors := r.errors ++ [(name, msg)] })
      r =
    ⟨r.success + (schemas.filter (fun name =>
        match provision name with | .ok _ => true | .error _ => false)).length,
     r.failures + (schemas.filter (fun name =>
        match provision name with | .ok _ => false | .error _ => true)).length,
     r.errors ++ schemas.filterMap (fun name =>
        match provision name with
        | .ok _ => none
        | .error msg => some (name, msg))⟩ := by
  induction schemas generalizing r with
  | nil => simp
  | cons name rest ih =>
    cases hp : provision name with
    | ok u =>
      simp only [List.foldl_cons, hp, List.filter_cons, List.filterMap_cons, ih]
      simp [hp, Nat.add_assoc, Nat.add_comm 1]
    | error msg =>
      simp only [List.foldl_cons, hp, List.filter_cons, List.filterMap_cons, ih]
      simp [hp, Nat.add_assoc, Nat.add_comm 1, List.append_assoc]

/-- C6: `migrateAllTenantSchemas` processes every registered schema even
when some fail: the report counts every successful schema in `success`,
every failing schema in `failures` with a `(schema, error)` entry in
`errors` (in registry order), `success + failures` equals the number of
tracked schemas, and the function returns a report rather than raising for
per-schema failures. -/
theorem migrateAll_success_add_failures
    (provision : String → Except String Unit) (l : List String) :
    (l.filter (fun name =>
        match provision name with | .ok _ => true | .error _ => false)).length +
      (l.filter (fun name =>
        match provision name with | .ok _ => false | .error _ => true)).length =
      l.length := by
  induction l with
  | nil => rfl
  | cons a l ih =>
    cases hp : provision a <;> simp [List.filter_cons, hp] <;> omega

theorem migrateAll_errors_length
    (provision : String → Except String Unit) (l : List String) :
    (l.filterMap (fun name =>
        match provision name with
        | .ok _ => none
        | .error msg => some (name, msg))).length =
      (l.filter (fun name =>
        match provision name with | .ok _ => false | .error _ => true)).length := by
  induction l with
  | nil => rfl
  | cons a l ih =>
    cases hp : provision a <;>
      simp [List.filterMap_cons, List.filter_cons, hp, ih]

theorem migrateAllTenantSchemas_report (provision : String → Except String Unit)
    (schemas : List String) :
    (migrateAllTenantSchemas provision schemas).success +
        (migrateAllTenantSchemas provision schemas).failures =
      schemas.length ∧
    (migrateAllTenantSchemas provision schemas).success =
      (schemas.filter (fun name =>
        match provision name with | .ok _ => true | .error _ => false)).length ∧
    (migrateAllTenantSchemas provision schemas).errors =
      schemas.filterMap (fun name =>
        match provision name with
        | .ok _ => none
        | .error msg => some (name, msg)) ∧
    (migrateAllTenantSchemas provision schemas).failures =
      (migrateAllTenantSchemas provision schemas).errors.length := by
  unfold migrateAllTenantSchemas
  rw [migrateAllTenantSchemas_foldl provision schemas ⟨0, 0, []⟩]
  refine ⟨?_, by simp, by simp, ?_⟩
  · simpa using migrateAll_success_add_failures provision schemas
  · simpa using (migrateAll_errors_length provision schemas).symm

/-! ## Health check (`db/scripts/health-check.ts`, journal-comparing variant)

For each `schema_tracker` row, in order: (a) schema existence, (b)
`dummy_table` existence, (c) `__drizzle_migrations` existence, (d) applied
tags versus the journal's expected tags — stopping at the first failure.
Separately, every engine schema outside the fixed exclusion list and the
SQL pattern `pg_%` that is not tracked is reported as orphaned. -/

/-- One defect classification (the `issue` pushed for an unhealthy schema). -/
inductive Defect where
  | schemaMissing
  | dummyTableMissing
  | trackingTableMissing
  | migrationMismatch (missing extra : List String)
deriving DecidableEq

/-- Database state observed by the health check. -/
structure HealthDb where
  /-- `schema_tracker` names, in select order -/
  trackedSchemas : List String
  /-- `information_schema.schemata` names -/
  dbSchemas : List String
  /-- `(schema, table)` pairs of `information_schema.tables` -/
  tables : List (String × String)
  /-- per-schema `__drizzle_migrations` hashes, in id order -/
  applied : List (String × List String)
deriving DecidableEq

/-- The applied-migration hashes of one schema. -/
def appliedFor (db : HealthDb) (name : String) : List String :=
  ((db.applied.find? (fun p => p.1 = name)).map (fun p => p.2)).getD []

/-- The per-schema classification of the health-check loop, short-circuiting
(a) → (b) → (c) → (d); `none` means healthy. -/
def checkSchema (expected : List String) (db : HealthDb) (name : String) :
    Option Defect :=
  if db.dbSchemas.contains name = false then some .schemaMissing
  else if db.tables.contains (name, "dummy_table") = false then
    some .dummyTableMissing
  else if db.tables.contains (name, "__drizzle_migrations") = false then
    some .trackingTableMissing
  else
    let applied := appliedFor db name
    let missing := expected.filter (fun m => !applied.contains m)
    let extra := applied.filter (fun m => !expected.contains m)
    if missing.length > 0 ∨ extra.length > 0 then
      some (.migrationMismatch missing extra)
    else none

/-- The fixed `NOT IN (...)` exclusion list of the orphan query. -/
def orphanExclusionList : List String :=
  ["pg_catalog", "information_schema", "pg_toast", "pg_temp_1",
   "pg_toast_temp_1", "public"]

/-- SQL `schema_name LIKE 'pg_%'`: in a `LIKE` pattern `_` matches exactly
one arbitrary character, so this holds of any name that is `pg` followed by
at least one character. -/
def likePgPattern (name : String) : Bool :=
  match name.data with
  | 'p' :: 'g' :: _ :: _ => true
  | _ => false

/-- Modelled from the spec: a name with the literal prefix `pg_`, the
exclusion the claim describes as "other pg_-prefixed schemas". -/
def pgUnderscorePrefixed (name : String) : Bool :=
  match name.data with
  | 'p' :: 'g' :: '_' :: _ => true
  | _ => false

/-- The `results` record of `healthCheck`. -/
structure AuditReport where
  totalSchemas : Nat
  healthySchemas : List String
  unhealthySchemas : List (String × Defect)
  orphanedSchemas : List String
deriving DecidableEq

/-- Embeds `healthCheck` (the journal-comparing variant): classify every
tracked schema, then list as orphaned every engine schema outside the
exclusions that is not tracked. -/
def healthCheck (expected : List String) (db : HealthDb) : AuditReport :=
  { totalSchemas := db.trackedSchemas.length
    healthySchemas :=
      db.trackedSchemas.filter (fun n => (checkSchema expected db n).isNone)
    unhealthySchemas :=
      db.trackedSchemas.filterMap
        (fun n => (checkSchema expected db n).map (fun d => (n, d)))
    orphanedSchemas :=
      (db.dbSchemas.filter
        (fun n => !orphanExclusionList.contains n && !likePgPattern n)).filter
        (fun n => !db.trackedSchemas.contains n) }

theorem filter_eq_singleton_of_count_one (l : List String) (t : String)
    (p : String → Bool) (hp : ∀ m ∈ l, (p m = true ↔ m = t))
    (hc : l.count t = 1) : l.filter p = [t] := by
  induction l with
  | nil => simp at hc
  | cons a l ih =>
    by_cases ha : a = t
    · subst ha
      have hpa : p a = true := (hp a (List.mem_cons_self a l)).mpr rfl
      have hcl : l.count a = 0 := by
        simp [List.count_cons] at hc
        omega
      have hnl : a ∉ l := by
        rwa [List.count_eq_zero] at hcl
      have hfl : l.filter p = [] := by
        rw [List.filter_eq_nil_iff]
        intro m hm hpm
        exact hnl (((hp m (List.mem_cons_of_mem a hm)).mp hpm) ▸ hm)
      rw [List.filter_cons_of_pos hpa, hfl]
    · have hpa : p a = false := by
        cases hb : p a
        · rfl
        · exact absurd ((hp a (List.mem_cons_self a l)).mp hb) ha
      have hcl : l.count t = 1 := by
        simpa [List.count_cons, ha] using hc
      rw [List.filter_cons_of_neg (by simp [hpa])]
      exact ih (fun m hm => hp m (List.mem_cons_of_mem a hm)) hcl

/-- C4: every tracked schema gets at most one defect classification, decided
by short-circuiting checks in the order schema existence → `dummy_table`
existence → `__drizzle_migrations` existence → tag comparison; and a schema
passing the first three checks whose tracking table lacks exactly one
expected tag `t` and holds no unexpected tags is classified as a migration
mismatch with missing set `[t]` and empty extra set. -/
theorem healthCheck_classification (expected : List String) (db : HealthDb)
    (name t : String) :
    (∀ d, (name, d) ∈ (healthCheck expected db).unhealthySchemas →
      name ∉ (healthCheck expected db).healthySchemas) ∧
    (∀ d d', (name, d) ∈ (healthCheck expected db).unhealthySchemas →
      (name, d') ∈ (healthCheck expected db).unhealthySchemas → d = d') ∧
    (db.dbSchemas.contains name = false →
      checkSchema expected db name = some .schemaMissing) ∧
    (db.dbSchemas.contains name = true →
      db.tables.contains (name, "dummy_table") = false →
      checkSchema expected db name = some .dummyTableMissing) ∧
    (db.dbSchemas.contains name = true →
      db.tables.contains (name, "dummy_table") = true →
      db.tables.contains (name, "__drizzle_migrations") = false →
      checkSchema expected db name = some .trackingTableMissing) ∧
    (db.dbSchemas.contains name = true →
      db.tables.contains (name, "dummy_table") = true →
      db.tables.contains (name, "__drizzle_migrations") = true →
      expected.count t = 1 →
      (appliedFor db name).contains t = false →
      (∀ m ∈ expected, m ≠ t → (appliedFor db name).contains m = true) →
      (∀ a ∈ appliedFor db name, a ∈ expected) →
      checkSchema expected db name = some (.migrationMismatch [t] []) ∧
      (name ∈ db.trackedSchemas →
        (name, Defect.migrationMismatch [t] []) ∈
          (healthCheck expected db).unhealthySchemas)) := by
  refine ⟨?_, ?_, ?_, ?_, ?_, ?_⟩
  · intro d hd hh
    simp only [healthCheck, List.mem_filterMap, Option.map_eq_some'] at hd
    simp only [healthCheck, List.mem_filter, Option.isNone_iff_eq_none] at hh
    obtain ⟨n, hn, d', hcheck, heq⟩ := hd
    obtain ⟨rfl, rfl⟩ := Prod.mk.inj heq
    rw [hh.2] at hcheck
    exact Option.noConfusion hcheck
  · intro d d' hd hd'
    simp only [healthCheck, List.mem_filterMap, Option.map_eq_some'] at hd hd'
    obtain ⟨n1, hn1, e1, hc1, he1⟩ := hd
    obtain ⟨n2, hn2, e2, hc2, he2⟩ := hd'
    obtain ⟨rfl, rfl⟩ := Prod.mk.inj he1
    obtain ⟨rfl, rfl⟩ := Prod.mk.inj he2
    rw [hc1] at hc2
    exact (Option.some.inj hc2)
  · intro h
    unfold checkSchema
    rw [if_pos h]
  · intro h1 h2
    unfold checkSchema
    rw [if_neg (by rw [h1]; simp), if_pos h2]
  · intro h1 h2 h3
    unfold checkSchema
    rw [if_neg (by rw [h1]; simp), if_neg (by rw [h2]; simp), if_pos h3]
  · intro h1 h2 h3 hcount hmissing hothers hnoextra
    have hmiss : expected.filter
        (fun m => !(appliedFor db name).contains m) = [t] := by
      refine filter_eq_singleton_of_count_one expected t _ ?_ hcount
      intro m hm
      constructor
      · intro hpm
        by_contra hne
        rw [hothers m hm hne] at hpm
        cases hpm
      · rintro rfl
        rw [hmissing]
        rfl
    have hextra : (appliedFor db name).filter
        (fun m => !expected.contains m) = [] := by
      rw [List.filter_eq_nil_iff]
      intro a ha
      simp [hnoextra a ha]
    have hcs : checkSchema expected db name =
        some (.migrationMismatch [t] []) := by
      unfold checkSchema
      rw [if_neg (by rw [h1]; simp), if_neg (by rw [h2]; simp), if_neg (by rw [h3]; simp)]
      simp only [hmiss, hextra]
      simp
    refine ⟨hcs, fun htr => ?_⟩
    simp only [healthCheck, List.mem_filterMap, Option.map_eq_some']
    exact ⟨name, htr, .migrationMismatch [t] [], hcs, rfl⟩

/-- Witness for C4: a schema passing checks (a)–(c) whose tracking table
lacks exactly the tag `0001_b` is classified `migrationMismatch [0001_b] []`
and reported as such. -/
theorem healthCheck_classification_witness :
    checkSchema ["0000_a", "0001_b"]
        ⟨["t1"], ["t1"], [("t1", "dummy_table"), ("t1", "__drizzle_migrations")],
         [("t1", ["0000_a"])]⟩ "t1" =
      some (.migrationMismatch ["0001_b"] []) ∧
    ("t1", Defect.migrationMismatch ["0001_b"] []) ∈
      (healthCheck ["0000_a", "0001_b"]
        ⟨["t1"], ["t1"], [("t1", "dummy_table"), ("t1", "__drizzle_migrations")],
         [("t1", ["0000_a"])]⟩).unhealthySchemas :=
  have h := (healthCheck_classification ["0000_a", "0001_b"]
    ⟨["t1"], ["t1"], [("t1", "dummy_table"), ("t1", "__drizzle_migrations")],
     [("t1", ["0000_a"])]⟩ "t1" "0001_b").2.2.2.2.2
    (by decide) (by decide) (by decide) (by decide) (by decide)
    (by decide) (by decide)
  ⟨h.1, h.2 (by decide)⟩

/-- C7 counterexample: the schema `pgx` is present in the engine, absent
from `schema_tracker`, is not in the claim's fixed exclusion list and is not
`pg_`-prefixed, yet the health check does not report it as orphaned — the
SQL pattern `pg_%` (with `_` a single-character wildcard) also excludes it. -/
theorem healthCheck_orphan_counterexample :
    ("pgx" ∈ (⟨[], ["pgx"], [], []⟩ : HealthDb).dbSchemas ∧
     "pgx" ∉ (⟨[], ["pgx"], [], []⟩ : HealthDb).trackedSchemas ∧
     "pgx" ∉ ["public", "pg_catalog", "information_schema", "pg_toast"] ∧
     pgUnderscorePrefixed "pgx" = false) ∧
    "pgx" ∉ (healthCheck [] ⟨[], ["pgx"], [], []⟩).orphanedSchemas := by
  refine ⟨⟨?_, ?_, ?_, ?_⟩, ?_⟩ <;> decide

/-- C7 (amended): every engine schema outside the fixed exclusion list and
not matching the SQL pattern `pg_%` (i.e. not `pg` followed by at least one
character) that is absent from `schema_tracker` appears in the orphaned
list, and every `schema_tracker` entry whose schema is absent from the
engine is reported unhealthy with the schema-does-not-exist defect. -/
theorem healthCheck_drift (expected : List String) (db : HealthDb)
    (name : String) :
    (name ∈ db.dbSchemas → name ∉ orphanExclusionList →
      likePgPattern name = false → name ∉ db.trackedSchemas →
      name ∈ (healthCheck expected db).orphanedSchemas) ∧
    (name ∈ db.trackedSchemas → name ∉ db.dbSchemas →
      (name, Defect.schemaMissing) ∈
        (healthCheck expected db).unhealthySchemas) := by
  constructor
  · intro hdb hexcl hpg htr
    simp only [healthCheck, List.mem_filter, Bool.and_eq_true,
      Bool.not_eq_true']
    refine ⟨⟨hdb, ?_, hpg⟩, ?_⟩
    · simp [hexcl]
    · simp [htr]
  · intro htr hdb
    simp only [healthCheck, List.mem_filterMap, Option.map_eq_some']
    refine ⟨name, htr, .schemaMissing, ?_, rfl⟩
    unfold checkSchema
    rw [if_pos (by simp [hdb])]

/-- Witness for the amended C7: an untracked engine schema `tenant_b` is
orphaned; a tracked schema `gone` missing from the engine is reported with
the schema-missing defect. -/
theorem healthCheck_drift_witness :
    "tenant_b" ∈
      (healthCheck [] ⟨["gone"], ["tenant_b"], [], []⟩).orphanedSchemas ∧
    ("gone", Defect.schemaMissing) ∈
      (healthCheck [] ⟨["gone"], ["tenant_b"], [], []⟩).unhealthySchemas :=
  ⟨(healthCheck_drift [] ⟨["gone"], ["tenant_b"], [], []⟩ "tenant_b").1
      (by decide) (by decide) (by decide) (by decide),
   (healthCheck_drift [] ⟨["gone"], ["tenant_b"], [], []⟩ "gone").2
      (by decide) (by decide)⟩

end DrizzleDemo
